import Mathlib

/-!
Verification of the tree-decoration state, quota and persistence subsystem.

The definitions below are a shallow embedding of the TypeScript sources:

* `src/data/treeStore.ts` — the tree state store (ornament and topper
  mutations, quota checks, persistence orchestration).
* `src/convex/auth.ts` — the authentication mutations.

JavaScript numbers are modelled as rationals, strings as `String`,
`Partial<...>` update records as structures of `Option` fields (a `none`
field is an absent key), and async functions as pure state-passing
functions in which nondeterministic inputs (generated ids, timestamps,
remote-call outcomes) are explicit parameters.

The share-code codec and the local storage backend live in
`src/data/treeExport.ts`, which is not among the provided sources; those
are modelled from the specification and marked as such in their doc
comments.
-/

namespace TreeApp

/-- Tree shape configuration, from the TreeConfig type used in
src/data/treeStore.ts and src/convex/trees.ts. -/
structure TreeConfig where
  seed : ℚ
  height : ℚ
  radius : ℚ
  tiers : ℚ
  color : String
  snowAmount : ℚ
deriving DecidableEq, Repr

/-- One placed ornament, from the OrnamentData type (treeStore.ts). -/
structure OrnamentData where
  id : String
  type : String
  color : String
  position : ℚ × ℚ × ℚ
  scale : ℚ
  rotation : Option (ℚ × ℚ × ℚ)
  userId : Option String
  userName : Option String
  createdAt : Int
deriving DecidableEq, Repr

/-- The single tree topper, from the TreeTopperData type (treeStore.ts). -/
structure TreeTopperData where
  id : String
  type : String
  color : String
  scale : ℚ
  glow : Bool
  userId : Option String
  userName : Option String
  createdAt : Int
deriving DecidableEq, Repr

/-- Per-user quota record, from the UserQuota type. -/
structure UserQuota where
  maxOrnaments : Nat
  usedOrnaments : Nat
  maxToppers : Nat
  usedToppers : Nat
  canUseSpecialOrnaments : Bool
  canUseCustomColors : Bool
  canUseAnimations : Bool
deriving DecidableEq, Repr

/-- A user record, from the User type. -/
structure User where
  id : String
  email : String
  passwordHash : String
  name : String
  tier : String
  quota : UserQuota
  createdAt : Int
  updatedAt : Int
deriving DecidableEq, Repr

/-- Export metadata, from the TreeExportMetadata type: optional
name, description, author name, author id, thumbnail, plus tags. -/
structure TreeExportMetadata where
  name : Option String
  description : Option String
  authorName : Option String
  authorId : Option String
  thumbnail : Option String
  tags : List String
deriving DecidableEq, Repr

/-- The portable export envelope, from the TreeExportData type: the
arguments of the api.trees.save mutation in src/convex/trees.ts. -/
structure TreeExportData where
  treeConfig : TreeConfig
  topper : Option TreeTopperData
  ornaments : List OrnamentData
  metadata : TreeExportMetadata
  exportedAt : Int
deriving DecidableEq, Repr

/-- The live store state managed by useTreeStore (treeStore.ts):
ornaments, topper, treeConfig, currentUser, isLoading, isSyncing,
cloudId. -/
structure TreeStoreState where
  ornaments : List OrnamentData
  topper : Option TreeTopperData
  treeConfig : TreeConfig
  currentUser : Option User
  isLoading : Bool
  isSyncing : Bool
  cloudId : Option String
deriving DecidableEq, Repr

/-- The draft passed to addOrnament:
Omit of OrnamentData by id, userId, createdAt (userName stays in the
draft type but is overwritten on creation). -/
structure OrnamentDraft where
  type : String
  color : String
  position : ℚ × ℚ × ℚ
  scale : ℚ
  rotation : Option (ℚ × ℚ × ℚ)
  userName : Option String
deriving DecidableEq, Repr

/-- The update record passed to updateOrnament, modelling a
TypeScript object of type `Partial OrnamentData`: a `none` field is an
absent key, a `some` field is a present key (possibly holding null for
the nullable fields, hence the nested options). -/
structure OrnamentUpdates where
  id : Option String := none
  type : Option String := none
  color : Option String := none
  position : Option (ℚ × ℚ × ℚ) := none
  scale : Option ℚ := none
  rotation : Option (Option (ℚ × ℚ × ℚ)) := none
  userId : Option (Option String) := none
  userName : Option (Option String) := none
  createdAt : Option Int := none
deriving DecidableEq, Repr

-- ============================================
-- Quota helpers (treeStore.ts lines 141-161)
-- ============================================

/-- canAddOrnament (treeStore.ts lines 141-144): false without a
current user, otherwise usedOrnaments is less than quota.maxOrnaments,
where usedOrnaments is the live ornament count (line 139). -/
def canAddOrnament (s : TreeStoreState) : Bool :=
  match s.currentUser with
  | none => false
  | some u => s.ornaments.length < u.quota.maxOrnaments

/-- The fixed special ornament-type subset (treeStore.ts line 149). -/
def specialTypes : List String := ["heart", "ribbon", "gingerbread"]

/-- canUseOrnamentType (treeStore.ts lines 146-156). -/
def canUseOrnamentType (s : TreeStoreState) (t : String) : Bool :=
  match s.currentUser with
  | none => false
  | some u =>
    if t ∈ specialTypes then u.quota.canUseSpecialOrnaments
    else true

/-- getRemainingOrnaments (treeStore.ts lines 158-161):
max 0 (maxOrnaments - usedOrnaments). -/
def getRemainingOrnaments (s : TreeStoreState) : Nat :=
  match s.currentUser with
  | none => 0
  | some u => u.quota.maxOrnaments - s.ornaments.length

-- ============================================
-- Ornament mutations (treeStore.ts lines 164-217)
-- ============================================

/-- The ornament built by addOrnament on success (treeStore.ts lines
167-173): the draft fields with a freshly generated id, attribution
from the current user, and the current timestamp. -/
def mkOrnament (d : OrnamentDraft) (u : Option User) (newId : String)
    (now : Int) : OrnamentData :=
  { id := newId
    type := d.type
    color := d.color
    position := d.position
    scale := d.scale
    rotation := d.rotation
    userId := u.map User.id
    userName := u.map User.name
    createdAt := now }

/-- addOrnament (treeStore.ts lines 164-178): returns null when
canAddOrnament is false, otherwise appends the freshly identified
ornament and returns it. The generated id and timestamp are explicit
parameters. -/
def addOrnament (s : TreeStoreState) (d : OrnamentDraft) (newId : String)
    (now : Int) : Option OrnamentData × TreeStoreState :=
  if canAddOrnament s then
    let o := mkOrnament d s.currentUser newId now
    (some o, { s with ornaments := s.ornaments ++ [o] })
  else
    (none, s)

/-- removeOrnament (treeStore.ts lines 180-183): filters the sequence
by id and always returns true. -/
def removeOrnament (s : TreeStoreState) (ornamentId : String) :
    Bool × TreeStoreState :=
  (true, { s with ornaments := s.ornaments.filter (fun o => o.id ≠ ornamentId) })

/-- The TypeScript spread merge on one ornament
(`\x7b ...o, ...updates \x7d`, treeStore.ts line 187): every key present
in the update record replaces the existing value; absent keys keep it. -/
def mergeOrnament (o : OrnamentData) (u : OrnamentUpdates) : OrnamentData :=
  { id := u.id.getD o.id
    type := u.type.getD o.type
    color := u.color.getD o.color
    position := u.position.getD o.position
    scale := u.scale.getD o.scale
    rotation := u.rotation.getD o.rotation
    userId := u.userId.getD o.userId
    userName := u.userName.getD o.userName
    createdAt := u.createdAt.getD o.createdAt }

/-- updateOrnament (treeStore.ts lines 185-191): maps the merge over
ornaments whose id matches and always returns true. -/
def updateOrnament (s : TreeStoreState) (ornamentId : String)
    (u : OrnamentUpdates) : Bool × TreeStoreState :=
  (true,
    { s with
      ornaments := s.ornaments.map (fun o =>
        if o.id = ornamentId then mergeOrnament o u else o) })

/-- clearOrnaments (treeStore.ts lines 193-195). -/
def clearOrnaments (s : TreeStoreState) : TreeStoreState :=
  { s with ornaments := [] }

-- ============================================
-- Share-code codec
--
-- Modelled from the spec: generateShareCode and parseShareCode live in
-- src/data/treeExport.ts, which is not among the provided sources.
-- Spec section 4.4 requires a deterministic, lossless, self-describing
-- encoding of the full envelope into a URL-safe string, and a decoder
-- that returns null (never throws) on malformed input. The model
-- serializes the envelope to a token stream and prints each token in
-- decimal, separated by a dash.
-- ============================================

/-- A flat stream of numeric tokens, the intermediate serialization
form of an envelope. -/
abbrev Tokens := List Nat

/-- Encode one natural number token. -/
def encNat (n : Nat) : Tokens := [n]

/-- Read one natural number token. -/
def decNat : Tokens → Option (Nat × Tokens)
  | [] => none
  | n :: r => some (n, r)

/-- Encode an integer as a sign tag followed by its absolute value. -/
def encInt (i : Int) : Tokens := [if i < 0 then 1 else 0, i.natAbs]

/-- Read an integer: a sign tag then an absolute value. -/
def decInt : Tokens → Option (Int × Tokens)
  | s :: n :: r =>
    if s = 0 then some ((n : Int), r)
    else if s = 1 then some (-(n : Int), r)
    else none
  | _ => none

/-- Encode a rational as numerator then denominator. -/
def encRat (q : ℚ) : Tokens := encInt q.num ++ encNat q.den

/-- Read a rational as numerator then denominator. -/
def decRat (t : Tokens) : Option (ℚ × Tokens) := do
  let (n, t) ← decInt t
  let (d, t) ← decNat t
  return ((n : ℚ) / (d : ℚ), t)

/-- Encode a string as its length followed by its character codes. -/
def encStr (s : String) : Tokens := encNat s.data.length ++ s.data.map Char.toNat

/-- Read a string: a length then that many character codes. -/
def decStr (t : Tokens) : Option (String × Tokens) :=
  match decNat t with
  | none => none
  | some (n, t1) =>
    if n ≤ t1.length then
      some (String.mk ((t1.take n).map Char.ofNat), t1.drop n)
    else none

/-- Encode a boolean as a 0 or 1 token. -/
def encBool (b : Bool) : Tokens := [if b then 1 else 0]

/-- Read a boolean token. -/
def decBool : Tokens → Option (Bool × Tokens)
  | b :: r =>
    if b = 0 then some (false, r)
    else if b = 1 then some (true, r)
    else none
  | _ => none

/-- Encode an optional value as a presence tag then, when present, the
value. -/
def encOpt (enc : α → Tokens) : Option α → Tokens
  | none => [0]
  | some x => 1 :: enc x

/-- Read an optional value. -/
def decOpt (dec : Tokens → Option (α × Tokens)) : Tokens → Option (Option α × Tokens)
  | tag :: r =>
    if tag = 0 then some ((none : Option α), r)
    else if tag = 1 then
      match dec r with
      | none => none
      | some (x, r2) => some (some x, r2)
    else none
  | [] => none

/-- Concatenate the encodings of the list elements. -/
def encListAux (enc : α → Tokens) : List α → Tokens
  | [] => []
  | x :: xs => enc x ++ encListAux enc xs

/-- Encode a list as its length followed by the element encodings. -/
def encList (enc : α → Tokens) (l : List α) : Tokens :=
  encNat l.length ++ encListAux enc l

/-- Read a known number of list elements. -/
def decListAux (dec : Tokens → Option (α × Tokens)) :
    Nat → Tokens → Option (List α × Tokens)
  | 0, t => some ([], t)
  | n + 1, t =>
    match dec t with
    | none => none
    | some (x, t1) =>
      match decListAux dec n t1 with
      | none => none
      | some (xs, t2) => some (x :: xs, t2)

/-- Read a list: a length then that many elements. -/
def decList (dec : Tokens → Option (α × Tokens)) (t : Tokens) :
    Option (List α × Tokens) :=
  match decNat t with
  | none => none
  | some (n, t1) => decListAux dec n t1

/-- Encode a 3-component vector. -/
def encVec3 (v : ℚ × ℚ × ℚ) : Tokens := encRat v.1 ++ encRat v.2.1 ++ encRat v.2.2

/-- Read a 3-component vector. -/
def decVec3 (t : Tokens) : Option ((ℚ × ℚ × ℚ) × Tokens) := do
  let (a, t) ← decRat t
  let (b, t) ← decRat t
  let (c, t) ← decRat t
  return ((a, b, c), t)

/-- Encode a tree configuration field by field. -/
def encConfig (c : TreeConfig) : Tokens :=
  encRat c.seed ++ encRat c.height ++ encRat c.radius ++ encRat c.tiers ++
    encStr c.color ++ encRat c.snowAmount

/-- Read a tree configuration field by field. -/
def decConfig (t : Tokens) : Option (TreeConfig × Tokens) := do
  let (seed, t) ← decRat t
  let (height, t) ← decRat t
  let (radius, t) ← decRat t
  let (tiers, t) ← decRat t
  let (color, t) ← decStr t
  let (snow, t) ← decRat t
  return (⟨seed, height, radius, tiers, color, snow⟩, t)

/-- Encode one ornament field by field. -/
def encOrnament (o : OrnamentData) : Tokens :=
  encStr o.id ++ encStr o.type ++ encStr o.color ++ encVec3 o.position ++
    encRat o.scale ++ encOpt encVec3 o.rotation ++ encOpt encStr o.userId ++
    encOpt encStr o.userName ++ encInt o.createdAt

/-- Read one ornament field by field. -/
def decOrnament (t : Tokens) : Option (OrnamentData × Tokens) := do
  let (i, t) ← decStr t
  let (ty, t) ← decStr t
  let (co, t) ← decStr t
  let (pos, t) ← decVec3 t
  let (sc, t) ← decRat t
  let (rot, t) ← decOpt decVec3 t
  let (uid, t) ← decOpt decStr t
  let (uname, t) ← decOpt decStr t
  let (cat, t) ← decInt t
  return (⟨i, ty, co, pos, sc, rot, uid, uname, cat⟩, t)

/-- Encode a topper field by field. -/
def encTopper (tp : TreeTopperData) : Tokens :=
  encStr tp.id ++ encStr tp.type ++ encStr tp.color ++ encRat tp.scale ++
    encBool tp.glow ++ encOpt encStr tp.userId ++ encOpt encStr tp.userName ++
    encInt tp.createdAt

/-- Read a topper field by field. -/
def decTopper (t : Tokens) : Option (TreeTopperData × Tokens) := do
  let (i, t) ← decStr t
  let (ty, t) ← decStr t
  let (co, t) ← decStr t
  let (sc, t) ← decRat t
  let (gl, t) ← decBool t
  let (uid, t) ← decOpt decStr t
  let (uname, t) ← decOpt decStr t
  let (cat, t) ← decInt t
  return (⟨i, ty, co, sc, gl, uid, uname, cat⟩, t)

/-- Encode the export metadata field by field. -/
def encMetadata (m : TreeExportMetadata) : Tokens :=
  encOpt encStr m.name ++ encOpt encStr m.description ++
    encOpt encStr m.authorName ++ encOpt encStr m.authorId ++
    encOpt encStr m.thumbnail ++ encList encStr m.tags

/-- Read the export metadata field by field. -/
def decMetadata (t : Tokens) : Option (TreeExportMetadata × Tokens) := do
  let (na, t) ← decOpt decStr t
  let (de, t) ← decOpt decStr t
  let (an, t) ← decOpt decStr t
  let (ai, t) ← decOpt decStr t
  let (th, t) ← decOpt decStr t
  let (tags, t) ← decList decStr t
  return (⟨na, de, an, ai, th, tags⟩, t)

/-- Encode a whole export envelope into the token stream. -/
def encEnvelope (e : TreeExportData) : Tokens :=
  encConfig e.treeConfig ++ encOpt encTopper e.topper ++
    encList encOrnament e.ornaments ++ encMetadata e.metadata ++
    encInt e.exportedAt

/-- Read a whole export envelope from the token stream. -/
def decEnvelope (t : Tokens) : Option (TreeExportData × Tokens) := do
  let (cfg, t) ← decConfig t
  let (tp, t) ← decOpt decTopper t
  let (os, t) ← decList decOrnament t
  let (md, t) ← decMetadata t
  let (ex, t) ← decInt t
  return (⟨cfg, tp, os, md, ex⟩, t)

-- The textual layer: each token is printed in decimal and the chunks
-- are joined with a dash, so the resulting string uses only URL-safe
-- characters.

/-- The decimal digit characters. -/
def digitChars : List Char := ['0', '1', '2', '3', '4', '5', '6', '7', '8', '9']

/-- The character for one decimal digit. -/
def toDigitChar (d : Nat) : Char := digitChars.getD d '0'

/-- The value of one decimal digit character (out-of-alphabet
characters map to the alphabet length). -/
def fromDigitChar (c : Char) : Nat := digitChars.indexOf c

/-- Little-endian decimal digits of a number, with explicit fuel so the
recursion is structural. -/
def natDigitsAux : Nat → Nat → List Nat
  | 0, _ => []
  | _ + 1, 0 => []
  | fuel + 1, n + 1 => ((n + 1) % 10) :: natDigitsAux fuel ((n + 1) / 10)

/-- Little-endian decimal digits of a number. -/
def natDigits (n : Nat) : List Nat := natDigitsAux n n

/-- Value of a little-endian digit list. -/
def fromDigits : List Nat → Nat
  | [] => 0
  | d :: ds => d + 10 * fromDigits ds

/-- Print one token as a chunk of digit characters. -/
def natChunk (n : Nat) : List Char := (natDigits n).map toDigitChar

/-- Read one chunk of digit characters back into a token. -/
def chunkToNat (cs : List Char) : Nat := fromDigits (cs.map fromDigitChar)

/-- Join chunks with a dash separator. -/
def joinChunks : List (List Char) → List Char
  | [] => []
  | [c] => c
  | c :: cs => c ++ '-' :: joinChunks cs

/-- Split a character list at every dash. -/
def splitChunks (l : List Char) : List (List Char) :=
  l.foldr
    (fun c acc =>
      if c = '-' then [] :: acc
      else
        match acc with
        | [] => [[c]]
        | h :: t => (c :: h) :: t)
    [[]]

/-- Modelled from the spec: generateShareCode (src/data/treeExport.ts,
not among the provided sources) deterministically and losslessly
encodes the full envelope into a URL-safe, self-describing string. -/
def generateShareCode (e : TreeExportData) : String :=
  String.mk (joinChunks ((encEnvelope e).map natChunk))

/-- Modelled from the spec: parseShareCode (src/data/treeExport.ts, not
among the provided sources) is the inverse of generateShareCode and
returns null, never throwing, on malformed, truncated or incompatible
input. -/
def parseShareCode (code : String) : Option TreeExportData :=
  match decEnvelope ((splitChunks code.data).map chunkToNat) with
  | some (e, []) => some e
  | _ => none

-- ============================================
-- Export / import (treeStore.ts lines 219-254)
-- ============================================

/-- Caller-supplied metadata overrides, modelling a TypeScript object
of type `Partial TreeExportMetadata`: a `none` field is an absent key. -/
structure MetadataOverrides where
  name : Option (Option String) := none
  description : Option (Option String) := none
  authorName : Option (Option String) := none
  authorId : Option (Option String) := none
  thumbnail : Option (Option String) := none
  tags : Option (List String) := none
deriving DecidableEq, Repr

/-- Modelled from the spec: exportTree (src/data/treeExport.ts, not
among the provided sources) deep-copies the ornaments, topper and
configuration, merges the caller-supplied metadata overrides on top of
defaults, and stamps the export time (spec section 4.3). -/
def exportTree (ornaments : List OrnamentData) (topper : Option TreeTopperData)
    (config : TreeConfig) (ov : MetadataOverrides) (now : Int) : TreeExportData :=
  { treeConfig := config
    topper := topper
    ornaments := ornaments
    metadata :=
      { name := ov.name.getD none
        description := ov.description.getD none
        authorName := ov.authorName.getD none
        authorId := ov.authorId.getD none
        thumbnail := ov.thumbnail.getD none
        tags := ov.tags.getD [] }
    exportedAt := now }

/-- exportTreeData (treeStore.ts lines 219-228): exportTree on the live
state, with the authorName and authorId keys of the overrides always
set from the current user. -/
def exportTreeData (s : TreeStoreState) (ov : MetadataOverrides) (now : Int) :
    TreeExportData :=
  exportTree s.ornaments s.topper s.treeConfig
    { ov with
      authorName := some (s.currentUser.map User.name)
      authorId := some (s.currentUser.map User.id) }
    now

/-- The data handed back by prepareTreeRestore, ready for
re-identification by the store. -/
structure RestoredTree where
  treeConfig : TreeConfig
  topper : Option TreeTopperData
  ornaments : List OrnamentData
deriving DecidableEq, Repr

/-- Modelled from the spec: prepareTreeRestore (src/data/treeExport.ts,
not among the provided sources) validates the envelope shape and
returns its configuration, topper and ornaments without assigning new
ids (spec section 4.3). In this typed model every envelope is
well-shaped, so the validation never rejects. -/
def prepareTreeRestore (d : TreeExportData) : RestoredTree :=
  ⟨d.treeConfig, d.topper, d.ornaments⟩

/-- importFromData (treeStore.ts lines 230-254): replaces the live
configuration, topper and ornaments with freshly identified copies of
the restored data, attributed to the current user. The id generator is
an explicit parameter indexed by the order of generateId calls in the
source (topper first when present, then each ornament). -/
def importFromData (s : TreeStoreState) (data : TreeExportData)
    (gen : Nat → String) (now : Int) : TreeStoreState :=
  let restored := prepareTreeRestore data
  let base : Nat := match restored.topper with | some _ => 1 | none => 0
  { s with
    treeConfig := restored.treeConfig
    topper := restored.topper.map (fun tp =>
      { tp with
        id := gen 0
        userId := s.currentUser.map User.id
        userName := s.currentUser.map User.name
        createdAt := now })
    ornaments := restored.ornaments.enum.map (fun p =>
      { p.2 with
        id := gen (base + p.1)
        userId := s.currentUser.map User.id
        userName := s.currentUser.map User.name
        createdAt := now }) }

-- ============================================
-- Persistence backends and orchestrator
-- (treeStore.ts lines 256-306 and 333-346)
-- ============================================

/-- Modelled from the spec: the browser key-value storage behind the
local backend (src/data/treeExport.ts, not among the provided sources),
holding envelopes keyed by locally generated identifiers (spec
section 4.5). -/
structure LocalStorage where
  entries : List (String × TreeExportData)
deriving DecidableEq, Repr

/-- Modelled from the spec: the local backend save operation
(localStorageBackend.save in src/data/treeExport.ts, not among the
provided sources): stores the envelope under a locally generated
identifier and returns that identifier (spec section 4.5). -/
def localStorageSave (ls : LocalStorage) (newId : String)
    (e : TreeExportData) : String × LocalStorage :=
  (newId, ⟨(newId, e) :: ls.entries⟩)

/-- Modelled from the spec: the local backend load operation
(localStorageBackend.load in src/data/treeExport.ts, not among the
provided sources): returns the envelope stored under the identifier,
or null when unknown (spec section 4.5). -/
def localStorageLoad (ls : LocalStorage) (i : String) : Option TreeExportData :=
  (ls.entries.find? (fun p => p.1 == i)).map Prod.snd

/-- saveToCloud (treeStore.ts lines 256-276): exports the current
state, attempts the remote save mutation — whose outcome (a
server-issued id, or a thrown error) is an explicit parameter — and on
success records the cloud id and returns it; on a thrown remote error
it falls back to the local backend save and returns the local
identifier, without touching the cloud id. -/
def saveToCloud (s : TreeStoreState) (ov : MetadataOverrides)
    (remote : Except Unit String) (ls : LocalStorage) (localId : String)
    (now : Int) : String × TreeStoreState × LocalStorage :=
  let data := exportTreeData s ov now
  match remote with
  | .ok i => (i, { s with cloudId := some i }, ls)
  | .error _ =>
    let r := localStorageSave ls localId data
    (r.1, s, r.2)

/-- loadFromCloud (treeStore.ts lines 278-294): queries the remote
backend — whose outcome (an envelope, a missing record, or a thrown
error) is an explicit parameter — and on success imports the data and
records the cloud id; on a missing record or a thrown error it returns
false. The loading flag is set for the duration of the call and cleared
in the finally block. -/
def loadFromCloud (s : TreeStoreState) (i : String)
    (remote : Except Unit (Option TreeExportData)) (gen : Nat → String)
    (now : Int) : Bool × TreeStoreState :=
  match remote with
  | .ok (some data) =>
    (true, { importFromData s data gen now with cloudId := some i, isLoading := false })
  | .ok none => (false, { s with isLoading := false })
  | .error _ => (false, { s with isLoading := false })

/-- getCloudShareURL (treeStore.ts lines 296-299): the empty string
without a cloud id, otherwise the origin with the cloud id as the id
query parameter. -/
def getCloudShareURL (s : TreeStoreState) (origin : String) : String :=
  match s.cloudId with
  | none => ""
  | some cid => origin ++ "?id=" ++ cid

/-- getShareCode (treeStore.ts line 327): the share code of the current
export snapshot. -/
def getShareCode (s : TreeStoreState) (now : Int) : String :=
  generateShareCode (exportTreeData s {} now)

/-- importFromCode (treeStore.ts lines 333-338): parses the share code;
on null returns false without touching the state, otherwise imports the
parsed data and returns true. -/
def importFromCode (s : TreeStoreState) (code : String) (gen : Nat → String)
    (now : Int) : Bool × TreeStoreState :=
  match parseShareCode code with
  | none => (false, s)
  | some data => (true, importFromData s data gen now)

/-- saveToStorage (treeStore.ts line 340): saves the current export
snapshot through the local backend and returns the local identifier;
the live state, including the cloud id, is not touched. -/
def saveToStorage (s : TreeStoreState) (ov : MetadataOverrides)
    (ls : LocalStorage) (newId : String) (now : Int) :
    String × TreeStoreState × LocalStorage :=
  let r := localStorageSave ls newId (exportTreeData s ov now)
  (r.1, s, r.2)

/-- loadFromStorage (treeStore.ts lines 341-346): loads from the local
backend; on a missing identifier returns false without touching the
state, otherwise imports the data and returns true. -/
def loadFromStorage (s : TreeStoreState) (i : String) (ls : LocalStorage)
    (gen : Nat → String) (now : Int) : Bool × TreeStoreState :=
  match localStorageLoad ls i with
  | none => (false, s)
  | some data => (true, importFromData s data gen now)

-- ============================================
-- Codec round-trip lemmas
-- ============================================

theorem decNat_enc (n : Nat) (r : Tokens) : decNat (encNat n ++ r) = some (n, r) := rfl

theorem decInt_enc (i : Int) (r : Tokens) : decInt (encInt i ++ r) = some (i, r) := by
  by_cases h : i < 0
  · simp [encInt, decInt, h, abs_of_neg h]
  · simp [encInt, decInt, h, abs_of_nonneg (by omega : (0 : Int) ≤ i)]

theorem decRat_enc (q : ℚ) (r : Tokens) : decRat (encRat q ++ r) = some (q, r) := by
  simp [decRat, encRat, List.append_assoc, decInt_enc, encNat, decNat, Rat.num_div_den]

theorem decStr_enc (s : String) (r : Tokens) : decStr (encStr s ++ r) = some (s, r) := by
  have hlen : (s.data.map Char.toNat).length = s.data.length := List.length_map _ _
  simp only [encStr, encNat, List.cons_append, List.nil_append, decStr, decNat]
  rw [if_pos (by simp)]
  rw [List.take_left' hlen, List.drop_left' hlen, List.map_map]
  simp [Function.comp_def, Char.ofNat_toNat]

theorem decBool_enc (b : Bool) (r : Tokens) : decBool (encBool b ++ r) = some (b, r) := by
  cases b <;> simp [encBool, decBool]

theorem decOpt_enc (enc : α → Tokens) (dec : Tokens → Option (α × Tokens))
    (h : ∀ x r, dec (enc x ++ r) = some (x, r)) (v : Option α) (r : Tokens) :
    decOpt dec (encOpt enc v ++ r) = some (v, r) := by
  cases v with
  | none => simp [encOpt, decOpt]
  | some x => simp [encOpt, decOpt, h]

theorem decListAux_enc (enc : α → Tokens) (dec : Tokens → Option (α × Tokens))
    (h : ∀ x r, dec (enc x ++ r) = some (x, r)) (l : List α) (r : Tokens) :
    decListAux dec l.length (encListAux enc l ++ r) = some (l, r) := by
  induction l generalizing r with
  | nil => simp [encListAux, decListAux]
  | cons x xs ih => simp [encListAux, decListAux, List.append_assoc, h, ih]

theorem decList_enc (enc : α → Tokens) (dec : Tokens → Option (α × Tokens))
    (h : ∀ x r, dec (enc x ++ r) = some (x, r)) (l : List α) (r : Tokens) :
    decList dec (encList enc l ++ r) = some (l, r) := by
  simp [encList, decList, encNat, decNat, List.append_assoc, decListAux_enc enc dec h]

theorem decVec3_enc (v : ℚ × ℚ × ℚ) (r : Tokens) :
    decVec3 (encVec3 v ++ r) = some (v, r) := by
  simp [encVec3, decVec3, List.append_assoc, decRat_enc]

theorem decOptVec3_enc (v : Option (ℚ × ℚ × ℚ)) (r : Tokens) :
    decOpt decVec3 (encOpt encVec3 v ++ r) = some (v, r) :=
  decOpt_enc _ _ decVec3_enc v r

theorem decOptStr_enc (v : Option String) (r : Tokens) :
    decOpt decStr (encOpt encStr v ++ r) = some (v, r) :=
  decOpt_enc _ _ decStr_enc v r

theorem decListStr_enc (l : List String) (r : Tokens) :
    decList decStr (encList encStr l ++ r) = some (l, r) :=
  decList_enc _ _ decStr_enc l r

theorem decConfig_enc (c : TreeConfig) (r : Tokens) :
    decConfig (encConfig c ++ r) = some (c, r) := by
  simp [encConfig, decConfig, List.append_assoc, decRat_enc, decStr_enc]

theorem decOrnament_enc (o : OrnamentData) (r : Tokens) :
    decOrnament (encOrnament o ++ r) = some (o, r) := by
  simp [encOrnament, decOrnament, List.append_assoc, decStr_enc, decVec3_enc,
    decRat_enc, decOptVec3_enc, decOptStr_enc, decInt_enc]

theorem decTopper_enc (tp : TreeTopperData) (r : Tokens) :
    decTopper (encTopper tp ++ r) = some (tp, r) := by
  simp [encTopper, decTopper, List.append_assoc, decStr_enc, decRat_enc,
    decBool_enc, decOptStr_enc, decInt_enc]

theorem decOptTopper_enc (v : Option TreeTopperData) (r : Tokens) :
    decOpt decTopper (encOpt encTopper v ++ r) = some (v, r) :=
  decOpt_enc _ _ decTopper_enc v r

theorem decListOrnament_enc (l : List OrnamentData) (r : Tokens) :
    decList decOrnament (encList encOrnament l ++ r) = some (l, r) :=
  decList_enc _ _ decOrnament_enc l r

theorem decMetadata_enc (m : TreeExportMetadata) (r : Tokens) :
    decMetadata (encMetadata m ++ r) = some (m, r) := by
  simp [encMetadata, decMetadata, List.append_assoc, decOptStr_enc, decListStr_enc]

theorem decEnvelope_enc (e : TreeExportData) (r : Tokens) :
    decEnvelope (encEnvelope e ++ r) = some (e, r) := by
  simp [encEnvelope, decEnvelope, List.append_assoc, decConfig_enc,
    decOptTopper_enc, decListOrnament_enc, decMetadata_enc, decInt_enc]

-- Textual layer lemmas.

theorem fromDigits_natDigitsAux (fuel : Nat) :
    ∀ n, n ≤ fuel → fromDigits (natDigitsAux fuel n) = n := by
  induction fuel with
  | zero =>
    intro n h
    have : n = 0 := by omega
    subst this
    simp [natDigitsAux, fromDigits]
  | succ f ih =>
    intro n h
    cases n with
    | zero => simp [natDigitsAux, fromDigits]
    | succ m =>
      have hle : (m + 1) / 10 ≤ f := by
        have := Nat.div_lt_self (Nat.succ_pos m) (by norm_num : 1 < 10)
        omega
      simp only [natDigitsAux, fromDigits]
      rw [ih _ hle]
      omega

theorem fromDigits_natDigits (n : Nat) : fromDigits (natDigits n) = n :=
  fromDigits_natDigitsAux n n le_rfl

theorem natDigitsAux_lt (fuel : Nat) :
    ∀ n d, d ∈ natDigitsAux fuel n → d < 10 := by
  induction fuel with
  | zero =>
    intro n d h
    simp [natDigitsAux] at h
  | succ f ih =>
    intro n d h
    cases n with
    | zero => simp [natDigitsAux] at h
    | succ m =>
      simp only [natDigitsAux, List.mem_cons] at h
      rcases h with h | h
      · subst h
        exact Nat.mod_lt _ (by norm_num)
      · exact ih _ _ h

theorem fromDigitChar_toDigitChar : ∀ d, d < 10 → fromDigitChar (toDigitChar d) = d := by
  decide

theorem chunkToNat_natChunk (n : Nat) : chunkToNat (natChunk n) = n := by
  unfold chunkToNat natChunk
  rw [List.map_map]
  have h1 : ∀ d ∈ natDigits n, (fromDigitChar ∘ toDigitChar) d = d := fun d hd =>
    fromDigitChar_toDigitChar d (natDigitsAux_lt n n d hd)
  rw [List.map_congr_left h1, List.map_id', fromDigits_natDigits]

theorem toDigitChar_ne_dash (d : Nat) : toDigitChar d ≠ '-' := by
  by_cases h : d < 10
  · exact (by decide : ∀ d, d < 10 → toDigitChar d ≠ '-') d h
  · unfold toDigitChar
    rw [List.getD_eq_default]
    · decide
    · simp only [digitChars, List.length]
      omega

theorem natChunk_no_dash (n : Nat) : '-' ∉ natChunk n := by
  intro h
  rw [natChunk, List.mem_map] at h
  obtain ⟨d, _, hd⟩ := h
  exact toDigitChar_ne_dash d hd

theorem splitChunks_cons (c : Char) (l : List Char) :
    splitChunks (c :: l) =
      if c = '-' then [] :: splitChunks l
      else
        match splitChunks l with
        | [] => [[c]]
        | h :: t => (c :: h) :: t := rfl

theorem splitChunks_append_sep (chunk rest : List Char) (h : '-' ∉ chunk) :
    splitChunks (chunk ++ '-' :: rest) = chunk :: splitChunks rest := by
  induction chunk with
  | nil =>
    rw [List.nil_append, splitChunks_cons, if_pos rfl]
  | cons c cs ih =>
    have hc : c ≠ '-' := fun e => h (e ▸ List.mem_cons_self c cs)
    have hcs : '-' ∉ cs := fun m => h (List.mem_cons_of_mem _ m)
    rw [List.cons_append, splitChunks_cons, if_neg hc, ih hcs]

theorem splitChunks_no_sep (chunk : List Char) (h : '-' ∉ chunk) :
    splitChunks chunk = [chunk] := by
  induction chunk with
  | nil => rfl
  | cons c cs ih =>
    have hc : c ≠ '-' := fun e => h (e ▸ List.mem_cons_self c cs)
    have hcs : '-' ∉ cs := fun m => h (List.mem_cons_of_mem _ m)
    rw [splitChunks_cons, if_neg hc, ih hcs]

theorem splitChunks_joinChunks :
    ∀ chunks : List (List Char), chunks ≠ [] →
      (∀ ch ∈ chunks, '-' ∉ ch) → splitChunks (joinChunks chunks) = chunks := by
  intro chunks
  induction chunks with
  | nil => intro h; exact absurd rfl h
  | cons ch rest ih =>
    intro _ hall
    cases rest with
    | nil =>
      show splitChunks (joinChunks [ch]) = [ch]
      rw [show joinChunks [ch] = ch from rfl]
      exact splitChunks_no_sep ch (hall ch (List.mem_cons_self _ _))
    | cons ch2 rest2 =>
      rw [show joinChunks (ch :: ch2 :: rest2) = ch ++ '-' :: joinChunks (ch2 :: rest2) from rfl]
      rw [splitChunks_append_sep _ _ (hall ch (List.mem_cons_self _ _))]
      rw [ih (by simp) (fun c hc => hall c (List.mem_cons_of_mem _ hc))]

theorem chunks_roundtrip (toks : Tokens) :
    ((toks.map natChunk).map chunkToNat) = toks := by
  induction toks with
  | nil => rfl
  | cons t ts ih => simp [chunkToNat_natChunk, ih]

theorem encEnvelope_ne_nil (e : TreeExportData) : encEnvelope e ≠ [] := by
  simp [encEnvelope, encConfig, encRat, encInt]

theorem parseShareCode_generateShareCode (e : TreeExportData) :
    parseShareCode (generateShareCode e) = some e := by
  unfold parseShareCode generateShareCode
  rw [show (String.mk (joinChunks ((encEnvelope e).map natChunk))).data =
      joinChunks ((encEnvelope e).map natChunk) from rfl]
  rw [splitChunks_joinChunks _ (by simpa using encEnvelope_ne_nil e)
    (fun ch hch => by
      rw [List.mem_map] at hch
      obtain ⟨t, _, ht⟩ := hch
      exact ht ▸ natChunk_no_dash t)]
  rw [chunks_roundtrip]
  rw [show decEnvelope (encEnvelope e) = some (e, []) from by
    simpa using decEnvelope_enc e []]

-- ============================================
-- Authentication mutations (src/convex/auth.ts)
--
-- Database records are modelled as JavaScript-style objects: ordered
-- key-value lists, so that removing a key by rest-destructuring
-- (`const \x7b passwordHash: _, ...safeUser \x7d = user`) is a real
-- operation on the object rather than a typing artifact.
-- ============================================

/-- A JavaScript field value stored in a user record. -/
inductive Value where
  | vStr : String → Value
  | vInt : Int → Value
  | vBool : Bool → Value
  | vQuota : UserQuota → Value

/-- A JavaScript-style object: an ordered key-value list. -/
abbrev Obj := List (String × Value)

/-- Field lookup on an object. -/
def getField (o : Obj) (k : String) : Option Value :=
  (o.find? (fun p => p.1 == k)).map Prod.snd

/-- Rest-destructuring that omits one key, as in
`const \x7b passwordHash: _, ...safeUser \x7d = user`. -/
def omitField (o : Obj) (k : String) : Obj :=
  o.filter (fun p => p.1 ≠ k)

/-- Whether an object has a key. -/
def hasKey (o : Obj) (k : String) : Bool :=
  o.any (fun p => p.1 == k)

/-- Whether a field holds the given string. -/
def fieldIs (o : Obj) (k v : String) : Bool :=
  match getField o k with
  | some (.vStr t) => t == v
  | _ => false

/-- A session row from auth.ts. -/
structure Session where
  userId : String
  token : String
  expiresAt : Int

/-- The tables touched by the auth mutations. -/
structure AuthDb where
  users : List Obj
  sessions : List Session

/-- The free-tier quota inserted by signup (auth.ts lines 28-36). -/
def freeQuota : UserQuota :=
  { maxOrnaments := 10
    usedOrnaments := 0
    maxToppers := 1
    usedToppers := 0
    canUseSpecialOrnaments := false
    canUseCustomColors := false
    canUseAnimations := false }

/-- The user record inserted by signup (auth.ts lines 23-39), with the
server-issued id attached as the _id field. The password is stored as
the hash verbatim (auth.ts line 21). -/
def mkUserObj (newId email password : String) (name : Option String)
    (now : Int) : Obj :=
  [("_id", .vStr newId), ("email", .vStr email), ("passwordHash", .vStr password)] ++
    (match name with
     | some n => [("name", .vStr n)]
     | none => []) ++
    [("tier", .vStr "free"), ("quota", .vQuota freeQuota),
     ("createdAt", .vInt now), ("updatedAt", .vInt now)]

/-- The result shape of the signup and login mutations. -/
structure AuthResult where
  success : Bool
  error : Option String
  token : Option String
  user : Option Obj

/-- The _id field of a user object, defaulting to the empty string. -/
def idOf (o : Obj) : String :=
  match getField o "_id" with
  | some (.vStr s) => s
  | _ => ""

/-- signup (auth.ts lines 4-57): fails when a user with the email
exists; otherwise inserts the user and a session and returns the
fetched user record with its passwordHash field removed. The
server-issued id, session token and clock are explicit parameters. -/
def signup (db : AuthDb) (email password : String) (name : Option String)
    (newId token : String) (now : Int) : AuthResult × AuthDb :=
  match db.users.find? (fun u => fieldIs u "email" email) with
  | some _ =>
    ({ success := false, error := some "User already exists",
       token := none, user := none }, db)
  | none =>
    let userObj := mkUserObj newId email password name now
    let db2 : AuthDb :=
      { users := db.users ++ [userObj]
        sessions := db.sessions ++
          [⟨newId, token, now + 1000 * 60 * 60 * 24 * 30⟩] }
    ({ success := true, error := none, token := some token,
       user := some (omitField userObj "passwordHash") }, db2)

/-- login (auth.ts lines 59-89): fails when no user with the email
exists or the stored passwordHash differs from the password; otherwise
inserts a session and returns the user record with its passwordHash
field removed. -/
def login (db : AuthDb) (email password : String) (token : String)
    (now : Int) : AuthResult × AuthDb :=
  match db.users.find? (fun u => fieldIs u "email" email) with
  | none =>
    ({ success := false, error := some "Invalid email or password",
       token := none, user := none }, db)
  | some u =>
    if fieldIs u "passwordHash" password then
      ({ success := true, error := none, token := some token,
         user := some (omitField u "passwordHash") },
       { db with
         sessions := db.sessions ++
           [⟨idOf u, token, now + 1000 * 60 * 60 * 24 * 30⟩] })
    else
      ({ success := false, error := some "Invalid email or password",
         token := none, user := none }, db)

/-- validateSession (auth.ts lines 91-109): returns null on an unknown
or expired token or a missing user, otherwise the user record with its
passwordHash field removed. -/
def validateSession (db : AuthDb) (token : String) (now : Int) : Option Obj :=
  match db.sessions.find? (fun s => s.token == token) with
  | none => none
  | some sess =>
    if sess.expiresAt < now then none
    else
      match db.users.find? (fun u => fieldIs u "_id" sess.userId) with
      | none => none
      | some u => some (omitField u "passwordHash")

theorem hasKey_omitField (o : Obj) (k : String) :
    hasKey (omitField o k) k = false := by
  simp only [hasKey, omitField]
  rw [List.any_eq_false]
  intro p hp
  have h2 := (List.mem_filter.mp hp).2
  simp only [ne_eq, decide_not, Bool.not_eq_true', decide_eq_false_iff_not] at h2
  simp [h2]

/-- Filtering twice with the same predicate equals filtering once. -/
theorem filter_idem (p : α → Bool) (l : List α) :
    (l.filter p).filter p = l.filter p := by
  induction l with
  | nil => rfl
  | cons x xs ih =>
    by_cases h : p x <;> simp [h, ih]

-- ============================================
-- Concrete fixtures used by witnesses and counterexamples
-- ============================================

/-- A free-tier quota allowing a single ornament and no special
ornament types. -/
def cQuota : UserQuota := ⟨1, 0, 1, 0, false, false, false⟩

/-- A free-tier user. -/
def cUser : User := ⟨"u1", "alice@example.com", "", "Alice", "free", cQuota, 0, 0⟩

/-- A concrete tree configuration (integer-valued so that concrete
states evaluate by decide). -/
def cConfig : TreeConfig := ⟨12345, 6, 2, 7, "#1a472a", 0⟩

/-- One concrete placed ornament with id a. -/
def cOrnament : OrnamentData := ⟨"a", "ball", "#ff0000", (0, 1, 0), 1, none, none, none, 0⟩

/-- One concrete ornament draft. -/
def cDraft : OrnamentDraft := ⟨"ball", "#ff0000", (0, 1, 0), 1, none, none⟩

/-- A store state with no ornaments, owned by the free user. -/
def cState : TreeStoreState := ⟨[], none, cConfig, some cUser, false, false, none⟩

/-- A store state holding the single ornament with id a. -/
def cState1 : TreeStoreState := ⟨[cOrnament], none, cConfig, some cUser, false, false, none⟩

/-- An update record that tries to overwrite the id, creation time and
attribution of an ornament. -/
def cUpd6 : OrnamentUpdates :=
  { id := some "b", createdAt := some 99, userId := some (some "evil") }

/-- An empty auth database. -/
def emptyAuthDb : AuthDb := ⟨[], []⟩

-- ============================================
-- Claims
-- ============================================

/-- Claim C1: for every metadata argument, when the remote save
mutation throws, saveToCloud still returns the identifier obtained from
the local backend save of the exported envelope, the envelope can be
loaded back from the local backend under that identifier, and a
subsequent loadFromStorage with it succeeds — the saved data is not
lost. -/
theorem C1_saveToCloud_falls_back_to_local (s : TreeStoreState)
    (ov : MetadataOverrides) (ls : LocalStorage) (localId : String) (now : Int) :
    (saveToCloud s ov (.error ()) ls localId now).1 =
      (localStorageSave ls localId (exportTreeData s ov now)).1 ∧
    localStorageLoad (saveToCloud s ov (.error ()) ls localId now).2.2
      (saveToCloud s ov (.error ()) ls localId now).1 =
      some (exportTreeData s ov now) ∧
    (∀ (s2 : TreeStoreState) (gen : Nat → String) (now2 : Int),
      (loadFromStorage s2 (saveToCloud s ov (.error ()) ls localId now).1
        (saveToCloud s ov (.error ()) ls localId now).2.2 gen now2).1 = true) := by
  refine ⟨rfl, ?_, ?_⟩
  · simp [saveToCloud, localStorageSave, localStorageLoad]
  · intro s2 gen now2
    simp [loadFromStorage, saveToCloud, localStorageSave, localStorageLoad]

/-- Claim C2: with a current user whose quota is n, addOrnament
succeeds and appends the freshly identified ornament whenever the live
count is strictly below n, returns null and leaves the state unchanged
when the count equals n, and therefore never pushes the live count
beyond n. -/
theorem C2_addOrnament_respects_quota (s : TreeStoreState) (u : User)
    (d : OrnamentDraft) (newId : String) (now : Int)
    (hu : s.currentUser = some u) :
    (s.ornaments.length < u.quota.maxOrnaments →
      (addOrnament s d newId now).1 = some (mkOrnament d s.currentUser newId now) ∧
      (addOrnament s d newId now).2.ornaments =
        s.ornaments ++ [mkOrnament d s.currentUser newId now]) ∧
    (s.ornaments.length = u.quota.maxOrnaments →
      (addOrnament s d newId now).1 = none ∧
      (addOrnament s d newId now).2 = s) ∧
    (s.ornaments.length ≤ u.quota.maxOrnaments →
      (addOrnament s d newId now).2.ornaments.length ≤ u.quota.maxOrnaments) := by
  refine ⟨?_, ?_, ?_⟩
  · intro hlt
    simp [addOrnament, canAddOrnament, hu, hlt]
  · intro heq
    have hnot : ¬ s.ornaments.length < u.quota.maxOrnaments := by omega
    simp [addOrnament, canAddOrnament, hu, hnot]
  · intro hle
    by_cases hlt : s.ornaments.length < u.quota.maxOrnaments
    · simp only [addOrnament, canAddOrnament, hu]
      rw [if_pos (by simpa using hlt)]
      simp
      omega
    · simp only [addOrnament, canAddOrnament, hu]
      rw [if_neg (by simpa using hlt)]
      exact hle

/-- Witness for claim C2 at a free user with quota 1: the call on the
empty tree succeeds and appends, the call on the full tree returns
null and changes nothing. -/
theorem C2_addOrnament_respects_quota_witness :
    ((addOrnament cState cDraft "o1" 5).1 =
      some (mkOrnament cDraft cState.currentUser "o1" 5) ∧
     (addOrnament cState cDraft "o1" 5).2.ornaments =
      cState.ornaments ++ [mkOrnament cDraft cState.currentUser "o1" 5]) ∧
    ((addOrnament cState1 cDraft "o2" 5).1 = none ∧
     (addOrnament cState1 cDraft "o2" 5).2 = cState1) := by
  refine ⟨?_, ?_⟩
  · exact (C2_addOrnament_respects_quota cState cUser cDraft "o1" 5 rfl).1 (by decide)
  · exact (C2_addOrnament_respects_quota cState1 cUser cDraft "o2" 5 rfl).2.1 (by decide)

/-- Claim C3: decoding the share code generated from any valid export
envelope yields a structurally equal envelope: the codec round-trip is
lossless for config values, ornament count and order, topper presence
and metadata. -/
theorem C3_share_code_roundtrip (e : TreeExportData) :
    parseShareCode (generateShareCode e) = some e :=
  parseShareCode_generateShareCode e

/-- Claim C4: a failed load — importFromCode on a code that parses to
null, and loadFromCloud on a thrown remote error or a missing record —
returns false and leaves the ornaments, topper and treeConfig exactly
as they were. -/
theorem C4_failed_load_preserves_state (s : TreeStoreState) (code : String)
    (i : String) (gen : Nat → String) (now : Int)
    (hp : parseShareCode code = none) :
    importFromCode s code gen now = (false, s) ∧
    (∀ remote : Except Unit (Option TreeExportData),
      remote = .error () ∨ remote = .ok none →
      (loadFromCloud s i remote gen now).1 = false ∧
      (loadFromCloud s i remote gen now).2.ornaments = s.ornaments ∧
      (loadFromCloud s i remote gen now).2.topper = s.topper ∧
      (loadFromCloud s i remote gen now).2.treeConfig = s.treeConfig) := by
  constructor
  · simp [importFromCode, hp]
  · rintro remote (rfl | rfl) <;> simp [loadFromCloud]

/-- Witness for claim C4: the malformed-code scenario string parses to
null and the import leaves the concrete store untouched. -/
theorem C4_failed_load_preserves_state_witness :
    parseShareCode "not-a-valid-code" = none ∧
    importFromCode cState1 "not-a-valid-code" (fun _ => "x") 0 = (false, cState1) := by
  have hp : parseShareCode "not-a-valid-code" = none := by decide
  exact ⟨hp,
    (C4_failed_load_preserves_state cState1 "not-a-valid-code" "id0"
      (fun _ => "x") 0 hp).1⟩

/-- Counterexample to claim C5: updating an id absent from the
sequence leaves the sequence unchanged but returns true, a success
result, not the false/failure result the claim demands. -/
theorem C5_counterexample :
    (∀ o ∈ cState1.ornaments, o.id ≠ "zzz") ∧
    (updateOrnament cState1 "zzz" {}).1 = true ∧
    (updateOrnament cState1 "zzz" {}).2 = cState1 := by
  decide

/-- Claim C5 as amended: for every id not present in the current
ornament sequence, updateOrnament returns true — a success result, not
a failure signal — and leaves the state, in particular the ornament
sequence, unchanged. -/
theorem C5_update_unknown_id_noop (s : TreeStoreState) (i : String)
    (u : OrnamentUpdates) (h : ∀ o ∈ s.ornaments, o.id ≠ i) :
    updateOrnament s i u = (true, s) := by
  unfold updateOrnament
  have hmap : s.ornaments.map
      (fun o => if o.id = i then mergeOrnament o u else o) = s.ornaments := by
    have h1 : s.ornaments.map
        (fun o => if o.id = i then mergeOrnament o u else o) =
        s.ornaments.map id :=
      List.map_congr_left (fun o ho => by simp [h o ho])
    rw [h1, List.map_id]
  rw [hmap]

/-- Witness for amended claim C5 at a concrete state. -/
theorem C5_update_unknown_id_noop_witness :
    updateOrnament cState1 "zzz" {} = (true, cState1) :=
  C5_update_unknown_id_noop cState1 "zzz" {} (by decide)

/-- Counterexample to claim C6: an update record carrying id,
createdAt and userId values does change those fields of the matching
ornament, although the claim says they are never changed. -/
theorem C6_counterexample :
    cOrnament ∈ cState1.ornaments ∧ cOrnament.id = "a" ∧
    (updateOrnament cState1 "a" cUpd6).2.ornaments =
      [{ cOrnament with id := "b", createdAt := 99, userId := some "evil" }] := by
  decide

/-- Claim C6 as amended: updateOrnament merges every field present in
partialFields into the matching ornament — including id, createdAt and
the attribution fields when partialFields carries values for them —
and preserves exactly the fields absent from partialFields. -/
theorem C6_update_merges_all_given_fields (s : TreeStoreState) (i : String)
    (u : OrnamentUpdates) (o : OrnamentData) (ho : o ∈ s.ornaments)
    (hid : o.id = i) :
    mergeOrnament o u ∈ (updateOrnament s i u).2.ornaments ∧
    (u.id = none → (mergeOrnament o u).id = o.id) ∧
    (u.createdAt = none → (mergeOrnament o u).createdAt = o.createdAt) ∧
    (u.userId = none → (mergeOrnament o u).userId = o.userId) ∧
    (u.userName = none → (mergeOrnament o u).userName = o.userName) ∧
    (∀ x, u.id = some x → (mergeOrnament o u).id = x) ∧
    (∀ x, u.createdAt = some x → (mergeOrnament o u).createdAt = x) ∧
    (∀ x, u.userId = some x → (mergeOrnament o u).userId = x) := by
  refine ⟨?_,
    fun hx => by simp [mergeOrnament, hx],
    fun hx => by simp [mergeOrnament, hx],
    fun hx => by simp [mergeOrnament, hx],
    fun hx => by simp [mergeOrnament, hx],
    fun x hx => by simp [mergeOrnament, hx],
    fun x hx => by simp [mergeOrnament, hx],
    fun x hx => by simp [mergeOrnament, hx]⟩
  have hm := List.mem_map_of_mem
    (fun o => if o.id = i then mergeOrnament o u else o) ho
  simpa [updateOrnament, hid] using hm

/-- Witness for amended claim C6 at a concrete state and update. -/
theorem C6_update_merges_all_given_fields_witness :
    mergeOrnament cOrnament cUpd6 ∈ (updateOrnament cState1 "a" cUpd6).2.ornaments ∧
    (mergeOrnament cOrnament cUpd6).id = "b" := by
  have h := C6_update_merges_all_given_fields cState1 "a" cUpd6 cOrnament (by decide) rfl
  exact ⟨h.1, h.2.2.2.2.2.1 "b" rfl⟩

/-- Counterexample to claim C7: saveToStorage succeeds — it returns
the local identifier — yet the session cloudId stays empty and no
share URL can be derived afterwards. -/
theorem C7_counterexample :
    (saveToStorage cState {} ⟨[]⟩ "local-1" 0).1 = "local-1" ∧
    (saveToStorage cState {} ⟨[]⟩ "local-1" 0).2.1.cloudId = none ∧
    getCloudShareURL (saveToStorage cState {} ⟨[]⟩ "local-1" 0).2.1
      "https://trees.example" = "" := by
  decide

/-- Claim C7 as amended: only a successful remote save inside
saveToCloud updates the session cloudId, from which the share URL is
then derived; the local fallback path of saveToCloud and saveToStorage
return the local identifier but leave cloudId unchanged. -/
theorem C7_cloudId_only_on_remote_success (s : TreeStoreState)
    (ov : MetadataOverrides) (ls : LocalStorage) (localId : String)
    (now : Int) (origin : String) :
    (∀ i, (saveToCloud s ov (.ok i) ls localId now).2.1.cloudId = some i ∧
      getCloudShareURL (saveToCloud s ov (.ok i) ls localId now).2.1 origin =
        origin ++ "?id=" ++ i) ∧
    (saveToCloud s ov (.error ()) ls localId now).2.1.cloudId = s.cloudId ∧
    (saveToStorage s ov ls localId now).2.1.cloudId = s.cloudId := by
  refine ⟨fun i => ⟨rfl, ?_⟩, rfl, rfl⟩
  simp [saveToCloud, getCloudShareURL]

/-- Claim C8: removeOrnament is idempotent — the second removal of the
same id yields exactly the state and result of the first — and
removing an id that is not present is a no-op reporting success. -/
theorem C8_removeOrnament_idempotent (s : TreeStoreState) (i : String) :
    removeOrnament (removeOrnament s i).2 i = removeOrnament s i ∧
    ((∀ o ∈ s.ornaments, o.id ≠ i) → removeOrnament s i = (true, s)) := by
  constructor
  · simp [removeOrnament, filter_idem]
  · intro h
    unfold removeOrnament
    rw [List.filter_eq_self.mpr (fun o ho => by simp [h o ho])]

/-- Witness for claim C8: removing an absent id twice from a concrete
state is the same as removing it once, and both are the identity. -/
theorem C8_removeOrnament_idempotent_witness :
    removeOrnament (removeOrnament cState1 "zzz").2 "zzz" =
      removeOrnament cState1 "zzz" ∧
    removeOrnament cState1 "zzz" = (true, cState1) := by
  have h := C8_removeOrnament_idempotent cState1 "zzz"
  exact ⟨h.1, h.2 (by decide)⟩

/-- Claim C9: canUseOrnamentType is true unconditionally for types
outside the special subset heart, ribbon, gingerbread, and for types
inside it exactly when the user quota allows special ornaments. -/
theorem C9_canUseOrnamentType_gating (s : TreeStoreState) (u : User)
    (t : String) (hu : s.currentUser = some u) :
    canUseOrnamentType s t =
      if t ∈ specialTypes then u.quota.canUseSpecialOrnaments else true := by
  simp [canUseOrnamentType, hu]

/-- Witness for claim C9: the free user with special ornaments
disabled gets false for heart and true for ball. -/
theorem C9_canUseOrnamentType_gating_witness :
    canUseOrnamentType cState "heart" = false ∧
    canUseOrnamentType cState "ball" = true := by
  have h1 := C9_canUseOrnamentType_gating cState cUser "heart" rfl
  have h2 := C9_canUseOrnamentType_gating cState cUser "ball" rfl
  refine ⟨?_, ?_⟩
  · rw [h1]; decide
  · rw [h2]; decide

/-- Claim C10: whenever signup, login or validateSession returns a user
record, that record has no passwordHash key: it was stripped before
being returned. -/
theorem C10_auth_strips_passwordHash (db : AuthDb) (email password : String)
    (name : Option String) (newId tokenA tokenB tokenC : String) (now : Int) :
    (∀ u, (signup db email password name newId tokenA now).1.user = some u →
      hasKey u "passwordHash" = false) ∧
    (∀ u, (login db email password tokenB now).1.user = some u →
      hasKey u "passwordHash" = false) ∧
    (∀ u, validateSession db tokenC now = some u →
      hasKey u "passwordHash" = false) := by
  refine ⟨?_, ?_, ?_⟩
  · intro u hu
    unfold signup at hu
    split at hu
    · simp at hu
    · simp only [Option.some.injEq] at hu
      rw [← hu]
      exact hasKey_omitField _ _
  · intro u hu
    unfold login at hu
    split at hu
    · simp at hu
    · split at hu
      · simp only [Option.some.injEq] at hu
        rw [← hu]
        exact hasKey_omitField _ _
      · simp at hu
  · intro u hu
    unfold validateSession at hu
    split at hu
    · simp at hu
    · split at hu
      · simp at hu
      · split at hu
        · simp at hu
        · simp only [Option.some.injEq] at hu
          rw [← hu]
          exact hasKey_omitField _ _

/-- Witness for claim C10: a signup on the empty database succeeds and
its returned user record carries no passwordHash key. -/
theorem C10_auth_strips_passwordHash_witness :
    hasKey (omitField (mkUserObj "u1" "alice@example.com" "pw" none 0)
      "passwordHash") "passwordHash" = false :=
  (C10_auth_strips_passwordHash emptyAuthDb "alice@example.com" "pw" none
    "u1" "t1" "t2" "t3" 0).1
    (omitField (mkUserObj "u1" "alice@example.com" "pw" none 0) "passwordHash") rfl

end TreeApp
